import Mathlib

/-!
Shallow embedding of the layout and geometry-calculation core of the
`visualkeras` repository (files `visualkeras/layer_utils.py`,
`visualkeras/utils.py`, `visualkeras/layered.py`, `visualkeras/graph.py`),
together with theorems settling the specification claims about it.

Python values that can appear as a layer's "output shape" are modelled by the
inductive type `PyVal`; fallible Python functions return `Except String`,
with warning emission tracked explicitly (a `Bool` flag or a `List String`
of warning messages).  Python `int`s are modelled by `Int`, Python `float`s
by `ℚ` (the arithmetic performed by the embedded code is `*`, `min`, `max`
and comparisons, which are exact), and `math.log10` — an external library
function — is passed in as an explicit function parameter.
-/

namespace VisualKeras

/-- Model of the Python values relevant to shape handling: `None`, ints,
strings (standing for any other unsupported object), tuples and lists. -/
inductive PyVal where
  | vNone
  | vInt (n : Int)
  | vStr (s : String)
  | vTuple (xs : List PyVal)
  | vList (xs : List PyVal)

namespace PyVal

/-- Python `type(x).__name__` for the modelled values. -/
def typeName : PyVal → String
  | vNone => "NoneType"
  | vInt _ => "int"
  | vStr _ => "str"
  | vTuple _ => "tuple"
  | vList _ => "list"

mutual
/-- Python `repr`-like rendering of a modelled value (used in error text). -/
def pyRepr : PyVal → String
  | vNone => "None"
  | vInt n => toString n
  | vStr s => s
  | vTuple xs => "(" ++ pyReprList xs ++ ")"
  | vList xs => "[" ++ pyReprList xs ++ "]"

/-- Comma-separated rendering of a list of modelled values. -/
def pyReprList : List PyVal → String
  | [] => ""
  | [x] => pyRepr x
  | x :: xs => pyRepr x ++ ", " ++ pyReprList xs
end

end PyVal

open PyVal

/-- The default fallback shape `(None, 1)` used by `extract_primary_shape`. -/
def fallbackShape : PyVal := .vTuple [.vNone, .vInt 1]

/-- The `" (layer: ...)"` suffix used in warnings and errors. -/
def layerInfo : Option String → String
  | some name => " (layer: " ++ name ++ ")"
  | none => ""

/-- The error message raised for an unsupported shape format
(`layer_utils.py` lines 580-584); it names the offending value. -/
def unsupportedShapeMessage (v : PyVal) (layer_name : Option String) : String :=
  "Unsupported tensor shape format: " ++ typeName v ++ " = " ++ pyRepr v ++
    layerInfo layer_name ++ ". Expected tuple or list, but got " ++
    typeName v ++ "."

/-- Embedding of `extract_primary_shape` (`layer_utils.py` lines 488-584).
Returns the primary shape together with a flag recording whether a
(non-fatal) warning was emitted; raising is modelled by `Except.error`. -/
def extract_primary_shape (layer_output_shape : PyVal)
    (layer_name : Option String) : Except String (PyVal × Bool) :=
  match layer_output_shape with
  | .vNone =>
      -- warn: shape is None; use default shape (None, 1)
      .ok (fallbackShape, true)
  | .vTuple xs =>
      match xs with
      | (PyVal.vTuple y) :: _ =>
          -- multi-output warning; primary output is element 0
          .ok (PyVal.vTuple y, true)
      | (PyVal.vList y) :: _ =>
          .ok (PyVal.vList y, true)
      | _ =>
          -- single output tuple: returned as-is
          .ok (.vTuple xs, false)
  | .vList xs =>
      match xs with
      | [x] => .ok (x, false)
      | x :: _ :: _ =>
          -- multi-output warning; primary output is element 0
          .ok (x, true)
      | [] =>
          -- warn: empty list; use default shape (None, 1)
          .ok (fallbackShape, true)
  | v => .error (unsupportedShapeMessage v layer_name)

/-- The accumulation step `s *= tensor_list[i]` of `self_multiply`
(`utils.py` line 141): multiplying with a `None` operand raises a
`TypeError`, modelled by `Except.error`. -/
def pyMulAcc (acc : Except String (Option Int)) (d : Option Int) :
    Except String (Option Int) :=
  match acc with
  | .error e => .error e
  | .ok s =>
      match s, d with
      | some a, some b => .ok (some (a * b))
      | _, _ => .error "TypeError"

/-- Embedding of `self_multiply` (`utils.py` lines 128-142).  The input is a
tuple whose entries are ints or `None`; `list.remove(None)` removes only the
first `None`.  The Python function can return an int, return `None` itself
(when the list is `[None]` after removal), or raise a `TypeError` (when a
`None` is an operand of `*=`, see `pyMulAcc`). -/
def self_multiply (tensor_tuple : List (Option Int)) : Except String (Option Int) :=
  let tensor_list := tensor_tuple.erase none
  match tensor_list with
  | [] => .ok (some 0)
  | s :: rest => rest.foldl pyMulAcc (.ok s)

/-!  Dimension scaling (`layer_utils.py` lines 586-793). -/

/-- Python builtin `min` on two numbers (returns the first on ties). -/
def pymin (a b : ℚ) : ℚ := if a ≤ b then a else b

/-- Python builtin `max` on two numbers (returns the first on ties). -/
def pymax (a b : ℚ) : ℚ := if b ≤ a then a else b

/-- The optional `dimension_caps` dictionary with keys
`channels`, `sequence`, `general`. -/
structure DimensionCaps where
  channels : Option ℚ := none
  sequence : Option ℚ := none
  general : Option ℚ := none

/-- Python `int(...)` truncation toward zero on a rational. -/
def pyInt (q : ℚ) : Int :=
  if 0 ≤ q then Rat.floor q else -Rat.floor (-q)

/-- Embedding of the inner helper `smart_scale` (`layer_utils.py` lines
638-655).  `log10f` stands for the external `math.log10`. -/
def smart_scale (log10f : ℚ → ℚ) (value base_scale min_val cap_val : ℚ) : ℚ :=
  if value ≤ 64 then
    pymin (pymax (value * base_scale) min_val) cap_val
  else if value ≤ 512 then
    pymin (pymax (value * base_scale * (6 / 10)) min_val) cap_val
  else if value ≤ 2048 then
    pymin (pymax (value * base_scale * (3 / 10)) min_val) cap_val
  else
    pymin (pymax (log10f value * base_scale * 15) min_val) cap_val

/-- Embedding of the inner helper `log_scale` (`layer_utils.py` lines
657-661). -/
def log_scale (log10f : ℚ → ℚ) (value base_scale min_val cap_val : ℚ) : ℚ :=
  if value ≤ 1 then min_val
  else pymin (pymax (log10f value * base_scale * 20) min_val) cap_val

/-- Embedding of the inner helper `proportional_scale` of the `relative`
sizing mode (`layer_utils.py` lines 730-753). -/
def proportional_scale (dimension relative_base_size min_val max_val : ℚ) : ℚ :=
  if dimension ≤ 0 then min_val
  else pymax min_val (pymin (dimension * relative_base_size) max_val)

/-- The warning text emitted for an unknown sizing mode
(`layer_utils.py` lines 779-783). -/
def unknownSizingModeWarning (sizing_mode : String) : String :=
  "Unknown sizing mode '" ++ sizing_mode ++ "'. Defaulting to accurate."

/-- Body of `calculate_layer_dimensions` (`layer_utils.py` lines 586-793),
with a structural fuel argument standing in for the (at most one level deep)
recursive call the Python makes for an unknown sizing mode; the fuel-0 arm is
never reached when starting from fuel 2.  `log10f` models the external
`math.log10`; the result is the `(x, y, z)` triple together with the list of
warnings emitted. -/
def calcDimsFuel : Nat → (ℚ → ℚ) → List (Option Int) →
    ℚ → ℚ → ℚ → ℚ → ℚ → ℚ → String → String → Option DimensionCaps → ℚ →
    (ℚ × ℚ × ℚ) × List String
  | 0, _, _, _, _, _, _, min_z, min_xy, _, _, _, _ =>
      ((min_xy, min_xy, min_z), [])
  | fuel + 1, log10f, shape, scale_z, scale_xy, max_z, max_xy, min_z, min_xy,
      one_dim_orientation, sizing_mode, dimension_caps, relative_base_size =>
  -- Extract numeric dims (skip batch dim)
  let dims : List Int := (shape.drop 1).filterMap id
  -- Default fallback
  if dims.isEmpty then ((min_xy, min_xy, min_z), [])
  else
    -- Setup caps
    let channel_cap : ℚ :=
      match dimension_caps with
      | some caps => caps.channels.getD max_z
      | none => max_z
    let sequence_cap : ℚ :=
      match dimension_caps with
      | some caps => caps.sequence.getD max_xy
      | none => max_xy
    let d0 : ℚ := ((dims.getD 0 0 : Int) : ℚ)
    let d1 : ℚ := ((dims.getD 1 0 : Int) : ℚ)
    let d2 : ℚ := ((dims.getD 2 0 : Int) : ℚ)
    -- Accurate mode: mirror original block
    if sizing_mode = "accurate" then
      if dims.length = 1 then
        if one_dim_orientation = "y" then
          ((min_xy, pymin (pymax (d0 * scale_xy) min_xy) max_xy, min_z), [])
        else
          ((min_xy, min_xy, pymin (pymax (d0 * scale_z) min_z) max_z), [])
      else if dims.length = 2 then
        ((pymin (pymax (d0 * scale_xy) min_xy) max_xy,
          pymin (pymax (d1 * scale_xy) min_xy) max_xy,
          pymin (pymax (d1 * scale_z) min_z) max_z), [])
      else
        -- `self_multiply(dims[2:])`; the `0` arm is unreachable since
        -- `dims` contains no `None` entries and `dims[2:]` is nonempty here
        let tailProd : ℚ :=
          match self_multiply ((dims.drop 2).map some) with
          | .ok (some v) => (v : ℚ)
          | _ => 0
        ((pymin (pymax (d0 * scale_xy) min_xy) max_xy,
          pymin (pymax (d1 * scale_xy) min_xy) max_xy,
          pymin (pymax (tailProd * scale_z) min_z) max_z), [])
    -- Capped mode
    else if sizing_mode = "capped" then
      if dims.length = 1 then
        if one_dim_orientation = "y" then
          ((min_xy, pymax (pymin (d0 * scale_xy) sequence_cap) min_xy, min_z), [])
        else
          ((min_xy, min_xy, pymax (pymin (d0 * scale_z) channel_cap) min_z), [])
      else if dims.length = 2 then
        -- note the dead conditional `dims[2] * scale_z if len(dims)>2 else
        -- min_z` from the source: inside this branch it always yields min_z
        ((pymax (pymin (d0 * scale_xy) sequence_cap) min_xy,
          pymax (pymin (d1 * scale_xy) sequence_cap) min_xy,
          pymax (pymin (if 2 < dims.length then d2 * scale_z else min_z)
            channel_cap) min_z), [])
      else
        -- no branch for 3 or more dims: Python falls through to the final
        -- `return (min_xy, min_xy, min_z)` at line 793
        ((min_xy, min_xy, min_z), [])
    -- Balanced mode
    else if sizing_mode = "balanced" then
      if dims.length = 1 then
        if one_dim_orientation = "y" then
          ((min_xy,
            ((pyInt (smart_scale log10f d0 scale_xy min_xy sequence_cap) : Int) : ℚ),
            min_z), [])
        else
          ((min_xy, min_xy,
            ((pyInt (smart_scale log10f d0 scale_z min_z channel_cap) : Int) : ℚ)), [])
      else
        ((((pyInt (smart_scale log10f d0 scale_xy min_xy sequence_cap) : Int) : ℚ),
          ((pyInt (smart_scale log10f d1 scale_xy min_xy sequence_cap) : Int) : ℚ),
          ((pyInt (smart_scale log10f (if 2 < dims.length then d2 else 1)
            scale_z min_z channel_cap) : Int) : ℚ)), [])
    -- Logarithmic mode
    else if sizing_mode = "logarithmic" then
      if dims.length = 1 then
        if one_dim_orientation = "y" then
          ((min_xy,
            ((pyInt (log_scale log10f d0 scale_xy min_xy sequence_cap) : Int) : ℚ),
            min_z), [])
        else
          ((min_xy, min_xy,
            ((pyInt (log_scale log10f d0 scale_z min_z channel_cap) : Int) : ℚ)), [])
      else
        ((((pyInt (log_scale log10f d0 scale_xy min_xy sequence_cap) : Int) : ℚ),
          ((pyInt (log_scale log10f d1 scale_xy min_xy sequence_cap) : Int) : ℚ),
          ((pyInt (log_scale log10f (if 2 < dims.length then d2 else 1)
            scale_z min_z channel_cap) : Int) : ℚ)), [])
    -- Relative mode
    else if sizing_mode = "relative" then
      if dims.length = 1 then
        if one_dim_orientation = "y" then
          ((min_xy, proportional_scale d0 relative_base_size min_xy sequence_cap,
            min_z), [])
        else
          ((min_xy, min_xy,
            proportional_scale d0 relative_base_size min_z channel_cap), [])
      else if dims.length = 2 then
        -- for 2D layers, the second dimension is used for z-scaling as well
        ((proportional_scale d0 relative_base_size min_xy sequence_cap,
          proportional_scale d1 relative_base_size min_xy sequence_cap,
          proportional_scale d1 relative_base_size min_z channel_cap), [])
      else
        -- 3D+ layers: channels are collapsed by `self_multiply(dims[2:])`
        let channel_product : ℚ :=
          if 2 < dims.length then
            match self_multiply ((dims.drop 2).map some) with
            | .ok (some v) => (v : ℚ)
            | _ => 0
          else 1
        ((proportional_scale d0 relative_base_size min_xy sequence_cap,
          proportional_scale d1 relative_base_size min_xy sequence_cap,
          proportional_scale channel_product relative_base_size min_z channel_cap),
         [])
    else
      -- unknown mode: warn, then recursive call with accurate sizing
      let r := calcDimsFuel fuel log10f shape scale_z scale_xy max_z
        max_xy min_z min_xy one_dim_orientation "accurate" dimension_caps
        relative_base_size
      (r.1, unknownSizingModeWarning sizing_mode :: r.2)

/-- Embedding of `calculate_layer_dimensions` (`layer_utils.py` lines
586-793): the fueled body started with enough fuel for the single recursive
call the source can make. -/
def calculate_layer_dimensions (log10f : ℚ → ℚ) (shape : List (Option Int))
    (scale_z scale_xy max_z max_xy min_z min_xy : ℚ)
    (one_dim_orientation : String := "y") (sizing_mode : String := "accurate")
    (dimension_caps : Option DimensionCaps := none)
    (relative_base_size : ℚ := 20) : (ℚ × ℚ × ℚ) × List String :=
  calcDimsFuel 2 log10f shape scale_z scale_xy max_z max_xy min_z min_xy
    one_dim_orientation sizing_mode dimension_caps relative_base_size

/-!
Hierarchy building (`layer_utils.py` lines 165-238).  Layers are modelled by
their dense indices `0, ..., n-1` (the `id_to_num_mapping` is the identity on
this abstraction, one layer per index), and the edge-count adjacency matrix
by the Boolean predicate `adj i j` (`adj_matrix[i][j] > 0`).  Python `set`s
are modelled as duplicate-free lists in insertion order.
-/

/-- A layer adjacency relation: `adj i j = true` iff `adj_matrix[i][j] > 0`. -/
abbrev Adj := Nat → Nat → Bool

/-- The direct predecessors of layer `l` (the `set(get_incoming_layers(...))`
of `layer_utils.py` line 229, listed in index order). -/
def incomingLayers (adj : Adj) (n l : Nat) : List Nat :=
  (List.range n).filter (fun p => adj p l)

/-- The successors of layer `s`: `np.where(adj_matrix[s] > 0)[0]`
(`layer_utils.py` line 225, in ascending index order like `np.where`). -/
def outgoingLayers (adj : Adj) (n s : Nat) : List Nat :=
  (List.range n).filter (fun e => adj s e)

/-- Embedding of `find_input_layers` (`layer_utils.py` lines 165-183): the
layers whose adjacency-matrix column sums to zero, i.e. with no incoming
edge, in ascending index order. -/
def find_input_layers (adj : Adj) (n : Nat) : List Nat :=
  (List.range n).filter (fun l => (List.range n).all (fun p => !adj p l))

/-- State of the per-level collection loop of `model_to_hierarchy_lists`:
the level under construction (`layer`) and the set of already-placed layers
(`prev_layers`). -/
structure LevelState where
  layer : List Nat
  prev : List Nat

/-- One candidate admission step (`layer_utils.py` lines 227-234): admit
successor `e` into the level under construction if all of its incoming
layers are already in `prev_layers` and it is not in the level yet. -/
def admitSucc (adj : Adj) (n : Nat) (st : LevelState) (e : Nat) : LevelState :=
  if (incomingLayers adj n e).all (fun p => st.prev.contains p) then
    if st.layer.contains e then st
    else
      { layer := st.layer ++ [e],
        prev := if st.prev.contains e then st.prev else st.prev ++ [e] }
  else st

/-- One pass of the `while` loop body (`layer_utils.py` lines 220-236):
process every successor of every layer of the current last level; also
report the `finished` flag, which stays `True` iff no successor edge at all
was seen. -/
def levelPass (adj : Adj) (n : Nat) (cur prev : List Nat) :
    List Nat × List Nat × Bool :=
  let st := cur.foldl
    (fun st s => (outgoingLayers adj n s).foldl (admitSucc adj n) st)
    { layer := [], prev := prev }
  (st.layer, st.prev, cur.all (fun s => (outgoingLayers adj n s).isEmpty))

/-- The `while not finished` loop of `model_to_hierarchy_lists`, with a fuel
bound on the number of passes (the Python loop always terminates because a
pass that admits nothing appends an empty level, which finishes the next
pass; every theorem below holds for every fuel value). -/
def hierarchyLoop (adj : Adj) (n : Nat) :
    Nat → List (List Nat) → List Nat → List (List Nat)
  | 0, hierarchy, _ => hierarchy
  | fuel + 1, hierarchy, prev =>
      let cur := hierarchy.getLastD []
      let r := levelPass adj n cur prev
      if r.2.2 then hierarchy
      else hierarchyLoop adj n fuel (hierarchy ++ [r.1]) r.2.1

/-- Embedding of `model_to_hierarchy_lists` (`layer_utils.py` lines
205-238): level 0 is the set of input layers; subsequent levels are built by
`hierarchyLoop`. -/
def model_to_hierarchy_lists (adj : Adj) (n fuel : Nat) : List (List Nat) :=
  let inputs := find_input_layers adj n
  hierarchyLoop adj n fuel [inputs] inputs

/-!
Layered scene construction (`layered.py` lines 115-349): box placement and
funnel drawing.  Only the geometry-relevant loop is embedded: each model
layer is either a `SpacingDummyLayer` (advancing the running coordinate) or
a real layer whose `(x, y, z)` box dimensions have been computed by
`calculate_layer_dimensions`; excluded (`type_ignore` / `index_ignore`)
layers are simply absent from the entry list, exactly as they are `continue`d
over by the source.
-/

/-- One entry of the layer walk of `layered_view`. -/
inductive LayerEntry where
  | spacer (spacing : ℚ)
  | layerBox (x y z : ℚ)

/-- A placed box (class `Box` of `utils.py`, geometric fields only). -/
structure LBox where
  x1 : ℚ
  y1 : ℚ
  x2 : ℚ
  y2 : ℚ
  de : ℚ

/-- State of the box-generation loop of `layered_view`
(`layered.py` lines 115-224). -/
structure LayeredState where
  boxes : List LBox
  current_z : ℚ
  x_off : ℚ

/-- One iteration of the box-generation loop of `layered_view`
(`layered.py` lines 136-224), restricted to its geometric content. -/
def layeredStep (draw_volume : Bool) (index_2D : List Nat) (spacing : ℚ)
    (st : LayeredState) (ie : Nat × LayerEntry) : LayeredState :=
  match ie.2 with
  | .spacer sp =>
      -- SpacingDummyLayer: do not render, just increase the pointer
      { st with current_z := st.current_z + sp }
  | .layerBox x y z =>
      let de : ℚ :=
        if draw_volume && !(index_2D.contains ie.1) then x / 3 else 0
      let x_off := if st.x_off = -1 then de / 2 else st.x_off
      let box : LBox :=
        { x1 := st.current_z - de / 2, y1 := de,
          x2 := st.current_z - de / 2 + z, y2 := de + y, de := de }
      { boxes := st.boxes ++ [box],
        current_z := st.current_z + z + spacing,
        x_off := x_off }

/-- The box-generation loop of `layered_view` over the (enumerated) model
layers; returns the list of placed boxes. -/
def layeredBoxes (entries : List LayerEntry) (draw_volume : Bool)
    (index_2D : List Nat) (padding spacing : ℚ) : List LBox :=
  (entries.enum.foldl
    (layeredStep draw_volume index_2D spacing)
    { boxes := [], current_z := padding, x_off := -1 }).boxes

/-- A funnel line segment `(x1, y1) -- (x2, y2)`. -/
structure Segment where
  ax : ℚ
  ay : ℚ
  bx : ℚ
  by2 : ℚ

/-- The four funnel segments drawn between two consecutive boxes in the
non-reversed drawing loop (`layered.py` lines 336-345). -/
def funnelBetween (last_box box : LBox) : List Segment :=
  [{ ax := last_box.x2 + last_box.de, ay := last_box.y1 - last_box.de,
     bx := box.x1 + box.de, by2 := box.y1 - box.de },
   { ax := last_box.x2 + last_box.de, ay := last_box.y2 - last_box.de,
     bx := box.x1 + box.de, by2 := box.y2 - box.de },
   { ax := last_box.x2, ay := last_box.y2, bx := box.x1, by2 := box.y2 },
   { ax := last_box.x2, ay := last_box.y1, bx := box.x1, by2 := box.y1 }]

/-- One iteration of the non-reversed box drawing loop (`layered.py` lines
332-349): if there is a `last_box` and `draw_funnel` is set, the four funnel
segments are emitted; `last_box` is then updated unconditionally. -/
def funnelStep (draw_funnel : Bool) (acc : List Segment × Option LBox)
    (box : LBox) : List Segment × Option LBox :=
  match acc.2 with
  | some last_box =>
      if draw_funnel then (acc.1 ++ funnelBetween last_box box, some box)
      else (acc.1, some box)
  | none => (acc.1, some box)

/-- The non-reversed box drawing loop of `layered_view` (`layered.py` lines
331-349), collecting the funnel segments it emits. -/
def funnelSegments (boxes : List LBox) (draw_funnel : Bool) : List Segment :=
  (boxes.foldl (funnelStep draw_funnel) ([], none)).1

/-!
Graph-view per-layer primitives (`graph.py` lines 113-166): the nodes
generated for one layer under `show_neurons` and the `ellipsize_after` cap.
-/

/-- Kind of a generated graph-view primitive. -/
inductive PrimKind where
  | circle
  | ellipses
  | box
deriving DecidableEq

/-- Embedding of the per-layer node generation of `graph_view` (`graph.py`
lines 124-146), restricted to the kind of each generated primitive.
`hasUnits` models `hasattr(layer, 'units') or hasattr(layer, 'filters')`,
`units` the corresponding count.  The index comparison `i != ellipsize_after
- 2` is on Python ints, hence over `Int`. -/
def graphLayerPrims (show_neurons hasUnits : Bool) (units ellipsize_after : Nat) :
    List PrimKind :=
  let is_box := !(show_neurons && hasUnits)
  let u := if show_neurons && hasUnits then units else 1
  let n := min u ellipsize_after
  (List.range n).map (fun (i : Nat) =>
    if !is_box then
      if (i : Int) ≠ (ellipsize_after : Int) - 2 then .circle else .ellipses
    else .box)

/-!  Helper lemmas. -/

/-- Folding `pyMulAcc` over a `None`-free list multiplies everything up. -/
theorem pyMulAcc_foldl_map_some (xs : List Int) : ∀ x : Int,
    (xs.map some).foldl pyMulAcc (.ok (some x)) = .ok (some (x * xs.prod)) := by
  induction xs with
  | nil => intro x; simp
  | cons y ys ih =>
      intro x
      simp only [List.map_cons, List.foldl_cons, pyMulAcc, List.prod_cons]
      rw [ih (x * y), mul_assoc]

/-- Applying `self_multiply` to a nonempty `None`-free tuple gives the plain product. -/
theorem self_multiply_map_some (l : List Int) (h : l ≠ []) :
    self_multiply (l.map some) = .ok (some l.prod) := by
  cases l with
  | nil => exact absurd rfl h
  | cons x xs =>
      have herase : ((x :: xs).map some).erase none = some x :: xs.map some := by
        rw [List.erase_of_not_mem (by simp)]
        simp
      simp only [self_multiply, herase]
      rw [pyMulAcc_foldl_map_some, List.prod_cons]

/-!  Claim theorems. -/

/-- C7 counterexample: `self_multiply((None, None, 3))` raises a `TypeError`
(the single `list.remove(None)` removes only the first `None`, and the
leftover `None` poisons the `*=` loop), whereas removing all `None` entries
first — the tuple `(3,)` — multiplies to `3`.  This refutes the claim that
`self_multiply` always returns the product of the non-`None` entries. -/
theorem C7_counterexample :
    self_multiply [none, none, some 3] = .error "TypeError" ∧
    self_multiply [some 3] = .ok (some 3) := ⟨rfl, rfl⟩

/-- C7 (amended): for every nonempty shape tuple with no `None` entries,
`self_multiply` returns the product of the entries; for a tuple containing
exactly one `None` entry (in any position) among at least one other entry,
it returns the product of the remaining entries.  (With two or more `None`
entries the function instead raises a `TypeError`, see the
counterexample.) -/
theorem C7_self_multiply_amended :
    (∀ l : List Int, l ≠ [] → self_multiply (l.map some) = .ok (some l.prod)) ∧
    (∀ l1 l2 : List Int, l1 ++ l2 ≠ [] →
      self_multiply (l1.map some ++ none :: l2.map some) =
        .ok (some (l1 ++ l2).prod)) := by
  refine ⟨self_multiply_map_some, ?_⟩
  intro l1 l2 h
  have herase : (l1.map some ++ none :: l2.map some).erase none
      = (l1 ++ l2).map some := by
    rw [List.erase_append_right _ (by simp), List.erase_cons_head, ← List.map_append]
  have hsame : self_multiply (l1.map some ++ none :: l2.map some)
      = self_multiply ((l1 ++ l2).map some) := by
    simp only [self_multiply, herase,
      List.erase_of_not_mem (l := (l1 ++ l2).map some) (a := none) (by simp)]
  rw [hsame]
  exact self_multiply_map_some _ h

/-- C7 witness: the amended statement applied to the concrete tuples
`(2, 3, 4)` and `(3, None, 4)`. -/
theorem C7_witness :
    self_multiply [some 2, some 3, some 4] = .ok (some 24) ∧
    self_multiply [some 3, none, some 4] = .ok (some 12) := by
  constructor
  · have h := C7_self_multiply_amended.1 [2, 3, 4] (by simp)
    simpa using h
  · have h := C7_self_multiply_amended.2 [3] [4] (by simp)
    simpa using h

/-- C4: `extract_primary_shape` fails — with the unsupported-shape error
naming the offending value — exactly when the raw shape is neither `None`
nor a tuple nor a list; for `None` and for the empty list it instead warns
and returns the fallback shape `(None, 1)`. -/
theorem C4_extract_primary_shape_errors :
    ∀ (v : PyVal) (name : Option String),
      ((∃ e, extract_primary_shape v name = .error e) ↔
        ((∃ k, v = .vInt k) ∨ (∃ s, v = .vStr s))) ∧
      (∀ e, extract_primary_shape v name = .error e →
        e = unsupportedShapeMessage v name) ∧
      (v = .vNone ∨ v = .vList [] →
        extract_primary_shape v name = .ok (fallbackShape, true)) := by
  intro v name
  cases v with
  | vNone => simp [extract_primary_shape]
  | vInt k => simp [extract_primary_shape]
  | vStr s => simp [extract_primary_shape]
  | vTuple xs =>
      cases xs with
      | nil => simp [extract_primary_shape]
      | cons x t => cases x <;> simp [extract_primary_shape]
  | vList xs =>
      cases xs with
      | nil => simp [extract_primary_shape]
      | cons x t => cases t <;> simp [extract_primary_shape]

/-- C4 witness: the theorem applied to the unsupported value `123`, to
`None` and to the empty list. -/
theorem C4_witness :
    (∃ e, extract_primary_shape (.vInt 123) (some "L") = .error e) ∧
    extract_primary_shape .vNone (some "L") = .ok (fallbackShape, true) ∧
    extract_primary_shape (.vList []) (some "L") = .ok (fallbackShape, true) :=
  ⟨(C4_extract_primary_shape_errors (.vInt 123) (some "L")).1.mpr
      (Or.inl ⟨123, rfl⟩),
   (C4_extract_primary_shape_errors .vNone (some "L")).2.2 (Or.inl rfl),
   (C4_extract_primary_shape_errors (.vList []) (some "L")).2.2 (Or.inr rfl)⟩

/-- C5 counterexample: a tuple-of-tuples with exactly one element still
triggers the multi-output warning (the tuple branch warns whenever the first
element is itself a tuple, regardless of the element count), contradicting
the claim that the warning is emitted iff more than one element exists. -/
theorem C5_counterexample :
    extract_primary_shape (.vTuple [.vTuple [.vNone, .vInt 3]]) (some "L") =
      .ok (.vTuple [.vNone, .vInt 3], true) := rfl

/-- C5 (amended): `extract_primary_shape` returns element 0 as the primary
shape for both multi-output forms; for a list of shape-tuples the non-fatal
warning is emitted iff the list has more than one element, but for a
tuple-of-tuples the warning is emitted always — even when the tuple contains
exactly one element. -/
theorem C5_extract_multi_output_amended :
    (∀ (y : List PyVal) (rest : List PyVal) (name : Option String),
      extract_primary_shape (.vTuple (.vTuple y :: rest)) name =
        .ok (.vTuple y, true)) ∧
    (∀ (x : PyVal) (t : List PyVal) (name : Option String),
      extract_primary_shape (.vList (x :: t)) name = .ok (x, !t.isEmpty)) := by
  constructor
  · intro y rest name
    rfl
  · intro x t name
    cases t <;> rfl

/-- The transform `proportional_scale` doubles exactly when neither value
hits a clamp bound (helper for C8). -/
theorem proportional_scale_double (d b mn mx : ℚ) (hd : 1 ≤ d) (hb : 0 ≤ b)
    (hmn : mn ≤ d * b) (hmx : 2 * (d * b) ≤ mx) :
    proportional_scale (2 * d) b mn mx = 2 * proportional_scale d b mn mx := by
  have hdb : 0 ≤ d * b := mul_nonneg (by linarith) hb
  simp only [proportional_scale, pymin, pymax]
  have h2d : ¬ 2 * d ≤ 0 := by linarith
  have hd0 : ¬ d ≤ 0 := by linarith
  rw [if_neg h2d, if_neg hd0]
  have hmul : 2 * d * b = 2 * (d * b) := by ring
  rw [hmul]
  rw [if_pos (by linarith : 2 * (d * b) ≤ mx), if_pos (by linarith : d * b ≤ mx)]
  have hRHS : (if d * b ≤ mn then mn else d * b) = d * b := by
    split_ifs with h
    · exact le_antisymm hmn h
    · rfl
  have hLHS : (if 2 * (d * b) ≤ mn then mn else 2 * (d * b)) = 2 * (d * b) := by
    split_ifs with h
    · exact le_antisymm (by linarith) h
    · rfl
  rw [hLHS, hRHS]

/-- C8: in `relative` sizing mode the per-axis transform is exactly
proportional — doubling a dimension exactly doubles the computed pixel
extent, provided neither value is altered by the min/max clamp; both for the
per-axis helper `proportional_scale` and for the y-extent computed by
`calculate_layer_dimensions` on a 1-D shape. -/
theorem C8_relative_mode_doubling :
    (∀ d b mn mx : ℚ, 1 ≤ d → 0 ≤ b → mn ≤ d * b → 2 * (d * b) ≤ mx →
      proportional_scale (2 * d) b mn mx = 2 * proportional_scale d b mn mx) ∧
    (∀ (log10f : ℚ → ℚ) (d : Int)
      (scale_z scale_xy max_z max_xy min_z min_xy b : ℚ),
      1 ≤ (d : ℚ) → 0 ≤ b → min_xy ≤ (d : ℚ) * b → 2 * ((d : ℚ) * b) ≤ max_xy →
      (calculate_layer_dimensions log10f [none, some (2 * d)] scale_z scale_xy
          max_z max_xy min_z min_xy "y" "relative" none b).1.2.1
        = 2 * (calculate_layer_dimensions log10f [none, some d] scale_z
          scale_xy max_z max_xy min_z min_xy "y" "relative" none b).1.2.1) := by
  refine ⟨proportional_scale_double, ?_⟩
  intro log10f d scale_z scale_xy max_z max_xy min_z min_xy b hd hb hmn hmx
  simp only [calculate_layer_dimensions, calcDimsFuel, List.drop, List.filterMap,
    String.reduceEq, ite_true, ite_false, List.isEmpty, List.length_cons,
    List.length_nil, List.getD, List.getElem?_cons_zero, Option.getD_some]
  norm_num
  exact proportional_scale_double (d : ℚ) b min_xy max_xy hd hb hmn hmx

/-- C8 witness: the doubling law applied at dimension 32 with base size 1
(pixel extents 32 and 64, bounds 20 and 2000 untouched). -/
theorem C8_witness :
    proportional_scale (2 * 32) 1 20 2000 = 2 * proportional_scale 32 1 20 2000 ∧
    (calculate_layer_dimensions (fun _ => 0) [none, some (2 * 32)] 1 4 400 2000
        20 20 "y" "relative" none 1).1.2.1
      = 2 * (calculate_layer_dimensions (fun _ => 0) [none, some 32] 1 4 400
        2000 20 20 "y" "relative" none 1).1.2.1 :=
  ⟨C8_relative_mode_doubling.1 32 1 20 2000 (by norm_num) (by norm_num)
      (by norm_num) (by norm_num),
   C8_relative_mode_doubling.2 (fun _ => 0) 32 1 4 400 2000 20 20 1
      (by norm_num) (by norm_num) (by norm_num) (by norm_num)⟩

/-- C10: with `show_neurons` enabled, for a layer with units attribute whose
unit count is `ellipsize_after - 1` or `ellipsize_after` — so no neuron is
elided (one primitive per unit) — the primitive at index
`ellipsize_after - 2` is still an `Ellipses` placeholder, because the
`i != ellipsize_after - 2` test fixes the position by index, not by whether
the unit count exceeds the cap. -/
theorem C10_ellipses_at_fixed_index (e u : Nat) (he : 2 ≤ e)
    (hu : u = e - 1 ∨ u = e) :
    (graphLayerPrims true true u e).length = u ∧
    (graphLayerPrims true true u e).getD (e - 2) .box = .ellipses := by
  have hue : u ≤ e := by omega
  have hmap : graphLayerPrims true true u e =
      (List.range u).map
        (fun (i : Nat) =>
          if (i : Int) ≠ (e : Int) - 2 then .circle else .ellipses) := by
    simp [graphLayerPrims, Nat.min_eq_left hue]
  have hlen : (graphLayerPrims true true u e).length = u := by
    rw [hmap, List.length_map, List.length_range]
  refine ⟨hlen, ?_⟩
  have hidx : e - 2 < (graphLayerPrims true true u e).length := by
    rw [hlen]; omega
  rw [List.getD_eq_getElem _ _ hidx]
  have hcast : (((e - 2 : Nat)) : Int) = (e : Int) - 2 := by omega
  simp only [hmap, List.getElem_map, List.getElem_range, hcast, ne_eq,
    not_true_eq_false, ite_false, if_false]

/-- C10 witness: `ellipsize_after = 10` with 9 and with 10 units — no
elision, yet index 8 is the `Ellipses` placeholder. -/
theorem C10_witness :
    (graphLayerPrims true true 9 10).length = 9 ∧
    (graphLayerPrims true true 9 10).getD 8 .box = .ellipses ∧
    (graphLayerPrims true true 10 10).getD 8 .box = .ellipses := by
  refine ⟨(C10_ellipses_at_fixed_index 10 9 (by norm_num) (Or.inl rfl)).1, ?_, ?_⟩
  · have h := (C10_ellipses_at_fixed_index 10 9 (by norm_num) (Or.inl rfl)).2
    exact h
  · have h := (C10_ellipses_at_fixed_index 10 10 (by norm_num) (Or.inr rfl)).2
    exact h

/-- C2 (code bug): in `capped` sizing mode a shape with three or more
concrete dimensions is handled by no branch and falls through to the final
fallback `(min_xy, min_xy, min_z)` — here `(1, 1, 1)` — instead of mapping
the first two dimensions to x/y and the product of the rest to z under the
caps (the claimed/intended behaviour, which would give `(10, 15, 50)` at
this input).  The second conjunct evaluates the repo's own test input
(`test_calculate_dimensions_capped`, which asserts `(15, 15, 50)`): the code
yields `(15, 15, 1)` because the z-branch condition `len(dims) > 2` is dead
inside the `len(dims) == 2` branch. -/
theorem C2_capped_mode_fallback :
    calculate_layer_dimensions (fun _ => 0) [none, some 10, some 20, some 30]
        1 1 999 999 1 1 "y" "capped"
        (some { sequence := some 15, channels := some 50 }) 20 = ((1, 1, 1), []) ∧
    calculate_layer_dimensions (fun _ => 0) [none, some 10, some 20]
        10 10 999 999 1 1 "y" "capped"
        (some { sequence := some 15, channels := some 50 }) 20
      = ((15, 15, 1), []) := by
  constructor <;>
    (simp only [calculate_layer_dimensions, calcDimsFuel, List.filterMap,
      String.reduceEq]
     norm_num [pymin, pymax])

/-- C3 counterexample: for the 1-D shape `(None, 5)` with
`one_dim_orientation='x'` (accurate mode, unit scales, bounds 1/100) the
code returns `(1, 1, 5)` — the dimension lands on the z axis and the x axis
stays at its minimum — not `(5, 1, 1)` as the claim requires; and the
invalid selector `'q'` produces the same result instead of failing with an
`UnsupportedOrientationError` (the function has no such error path). -/
theorem C3_counterexample :
    calculate_layer_dimensions (fun _ => 0) [none, some 5] 1 1 100 100 1 1 "x"
        "accurate" none 20 = ((1, 1, 5), []) ∧
    calculate_layer_dimensions (fun _ => 0) [none, some 5] 1 1 100 100 1 1 "q"
        "accurate" none 20 = ((1, 1, 5), []) ∧
    (((1 : ℚ), (1 : ℚ), (5 : ℚ)) ≠ ((5 : ℚ), (1 : ℚ), (1 : ℚ))) := by
  refine ⟨?_, ?_, by norm_num⟩ <;>
    (simp only [calculate_layer_dimensions, calcDimsFuel, List.filterMap,
      String.reduceEq]
     norm_num [pymin, pymax])

/-- C3 (amended): for every 1-D normalized shape,
`calculate_layer_dimensions` maps the single dimension to the y axis when
`one_dim_orientation = 'y'` and to the z axis for **every** other selector —
including `'x'` and invalid values — with the other axes at their minimum
bound; no `UnsupportedOrientationError` exists and no selector is rejected.
Stated for the two modes the claim cites (`accurate` and `relative`). -/
theorem C3_one_dim_dispatch_amended :
    ∀ (log10f : ℚ → ℚ) (shape : List (Option Int)) (d : Int)
      (scale_z scale_xy max_z max_xy min_z min_xy rbs : ℚ) (o : String),
      (shape.drop 1).filterMap id = [d] →
      (o ≠ "y" →
        calculate_layer_dimensions log10f shape scale_z scale_xy max_z max_xy
            min_z min_xy o "accurate" none rbs
          = ((min_xy, min_xy, pymin (pymax ((d : ℚ) * scale_z) min_z) max_z),
            []) ∧
        calculate_layer_dimensions log10f shape scale_z scale_xy max_z max_xy
            min_z min_xy o "relative" none rbs
          = ((min_xy, min_xy, proportional_scale (d : ℚ) rbs min_z max_z),
            [])) ∧
      (o = "y" →
        calculate_layer_dimensions log10f shape scale_z scale_xy max_z max_xy
            min_z min_xy o "accurate" none rbs
          = ((min_xy, pymin (pymax ((d : ℚ) * scale_xy) min_xy) max_xy, min_z),
            []) ∧
        calculate_layer_dimensions log10f shape scale_z scale_xy max_z max_xy
            min_z min_xy o "relative" none rbs
          = ((min_xy, proportional_scale (d : ℚ) rbs min_xy max_xy, min_z),
            [])) := by
  intro log10f shape d scale_z scale_xy max_z max_xy min_z min_xy rbs o hdims
  rw [List.drop_one] at hdims
  constructor
  · intro ho
    constructor <;>
      simp [calculate_layer_dimensions, calcDimsFuel, hdims, String.reduceEq,
        if_neg ho]
  · intro ho
    subst ho
    constructor <;>
      simp [calculate_layer_dimensions, calcDimsFuel, hdims, String.reduceEq]

/-- C3 witness: the amended dispatch applied at concrete inputs — selector
`'z'` sends dimension 7 to the z axis, selector `'y'` sends it to the y
axis. -/
theorem C3_witness :
    calculate_layer_dimensions (fun _ => 0) [none, some 7] 1 1 100 100 1 1 "z"
        "accurate" none 20 = ((1, 1, pymin (pymax ((7 : ℚ) * 1) 1) 100), []) ∧
    calculate_layer_dimensions (fun _ => 0) [none, some 7] 1 1 100 100 1 1 "y"
        "accurate" none 20
      = ((1, pymin (pymax ((7 : ℚ) * 1) 1) 100, 1), []) :=
  ⟨((C3_one_dim_dispatch_amended (fun _ => 0) [none, some 7] 7 1 1 100 100 1 1
      20 "z" rfl).1 (by simp)).1,
   ((C3_one_dim_dispatch_amended (fun _ => 0) [none, some 7] 7 1 1 100 100 1 1
      20 "y" rfl).2 rfl).1⟩

/-- In `accurate` mode the fuel is irrelevant (the body makes no recursive
call); helper for C9. -/
theorem calcDimsFuel_accurate_fuel (fuel : Nat) (log10f : ℚ → ℚ)
    (shape : List (Option Int)) (scale_z scale_xy max_z max_xy min_z min_xy : ℚ)
    (o : String) (caps : Option DimensionCaps) (rbs : ℚ) :
    calcDimsFuel (fuel + 1) log10f shape scale_z scale_xy max_z max_xy min_z
        min_xy o "accurate" caps rbs
      = calcDimsFuel 1 log10f shape scale_z scale_xy max_z max_xy min_z min_xy
        o "accurate" caps rbs := by
  simp [calcDimsFuel, String.reduceEq]

/-- The `accurate` mode emits no warnings; helper for C9. -/
theorem calcDimsFuel_accurate_no_warning (fuel : Nat) (log10f : ℚ → ℚ)
    (shape : List (Option Int)) (scale_z scale_xy max_z max_xy min_z min_xy : ℚ)
    (o : String) (caps : Option DimensionCaps) (rbs : ℚ) :
    (calcDimsFuel (fuel + 1) log10f shape scale_z scale_xy max_z max_xy min_z
        min_xy o "accurate" caps rbs).2 = [] := by
  simp only [calcDimsFuel, String.reduceEq, ite_true, ite_false]
  split <;> try rfl
  split <;> try rfl
  · split <;> rfl
  · split <;> rfl

/-- C9 counterexample: for a normalized shape with no concrete dimension —
here `(None,)` — an unknown sizing mode returns the minimum box through the
early degenerate-shape return **without emitting any warning** (the warning
list is empty), contradicting the claim that every call with an unknown mode
emits a warning. -/
theorem C9_counterexample :
    calculate_layer_dimensions (fun _ => 0) [none] 1 4 400 2000 20 20 "z"
        "bogus" none 20 = ((20, 20, 20), []) := by
  simp [calculate_layer_dimensions, calcDimsFuel]

/-- C9 (amended): a call with a sizing mode outside the five recognized ones
returns exactly the same `(x, y, z)` triple as the identical call with
`accurate` (which itself never warns); the unknown-mode warning is emitted
precisely when the shape has at least one concrete dimension — a degenerate
shape returns the minimum box before the mode dispatch, without warning. -/
theorem C9_unknown_mode_amended :
    ∀ (log10f : ℚ → ℚ) (shape : List (Option Int))
      (scale_z scale_xy max_z max_xy min_z min_xy rbs : ℚ) (o : String)
      (caps : Option DimensionCaps) (mode : String),
      mode ≠ "accurate" → mode ≠ "capped" → mode ≠ "balanced" →
      mode ≠ "logarithmic" → mode ≠ "relative" →
      (calculate_layer_dimensions log10f shape scale_z scale_xy max_z max_xy
          min_z min_xy o mode caps rbs).1
        = (calculate_layer_dimensions log10f shape scale_z scale_xy max_z
          max_xy min_z min_xy o "accurate" caps rbs).1 ∧
      (calculate_layer_dimensions log10f shape scale_z scale_xy max_z max_xy
          min_z min_xy o "accurate" caps rbs).2 = [] ∧
      (((shape.drop 1).filterMap id).isEmpty = true →
        (calculate_layer_dimensions log10f shape scale_z scale_xy max_z max_xy
          min_z min_xy o mode caps rbs).2 = []) ∧
      (((shape.drop 1).filterMap id).isEmpty = false →
        (calculate_layer_dimensions log10f shape scale_z scale_xy max_z max_xy
          min_z min_xy o mode caps rbs).2 = [unknownSizingModeWarning mode]) := by
  intro log10f shape scale_z scale_xy max_z max_xy min_z min_xy rbs o caps
    mode h1 h2 h3 h4 h5
  have hacc := calcDimsFuel_accurate_no_warning 1 log10f shape scale_z scale_xy
    max_z max_xy min_z min_xy o caps rbs
  by_cases hdims : (((shape.drop 1).filterMap id) : List Int).isEmpty
  · rw [List.drop_one] at hdims
    refine ⟨?_, hacc, fun _ => ?_, fun hfalse => ?_⟩
    · simp [calculate_layer_dimensions, calcDimsFuel, hdims]
    · simp [calculate_layer_dimensions, calcDimsFuel, hdims]
    · rw [List.drop_one] at hfalse
      rw [hdims] at hfalse
      cases hfalse
  · rw [List.drop_one] at hdims
    rw [Bool.not_eq_true] at hdims
    have hmain : calculate_layer_dimensions log10f shape scale_z scale_xy max_z
        max_xy min_z min_xy o mode caps rbs
      = ((calcDimsFuel 1 log10f shape scale_z scale_xy max_z max_xy min_z
          min_xy o "accurate" caps rbs).1,
        unknownSizingModeWarning mode
          :: (calcDimsFuel 1 log10f shape scale_z scale_xy max_z max_xy min_z
          min_xy o "accurate" caps rbs).2) := by
      simp [calculate_layer_dimensions, calcDimsFuel, hdims, if_neg h1,
        if_neg h2, if_neg h3, if_neg h4, if_neg h5]
    refine ⟨?_, hacc, fun htrue => ?_, fun _ => ?_⟩
    · rw [hmain]
      show _ = (calcDimsFuel 2 log10f shape scale_z scale_xy max_z max_xy
        min_z min_xy o "accurate" caps rbs).1
      rw [calcDimsFuel_accurate_fuel 1]
    · rw [List.drop_one] at htrue
      rw [hdims] at htrue
      cases htrue
    · rw [hmain]
      have h0 := calcDimsFuel_accurate_no_warning 0 log10f shape scale_z
        scale_xy max_z max_xy min_z min_xy o caps rbs
      rw [h0]

/-- C9 witness: the amended statement at the unknown mode `"bogus"` for a
2-D shape (where the triple matches `accurate` and the warning is emitted)
and for the degenerate shape `(None,)` (where no warning is emitted). -/
theorem C9_witness :
    (calculate_layer_dimensions (fun _ => 0) [none, some 4, some 5] 2 3 30 30
        1 1 "y" "bogus" none 20).1
      = (calculate_layer_dimensions (fun _ => 0) [none, some 4, some 5] 2 3 30
        30 1 1 "y" "accurate" none 20).1 ∧
    (calculate_layer_dimensions (fun _ => 0) [none, some 4, some 5] 2 3 30 30
        1 1 "y" "bogus" none 20).2 = [unknownSizingModeWarning "bogus"] ∧
    (calculate_layer_dimensions (fun _ => 0) [none] 2 3 30 30 1 1 "y" "bogus"
        none 20).2 = [] := by
  have h := C9_unknown_mode_amended (fun _ => 0) [none, some 4, some 5] 2 3 30
    30 1 1 20 "y" none "bogus" (by simp) (by simp) (by simp) (by simp) (by simp)
  have h0 := C9_unknown_mode_amended (fun _ => 0) [none] 2 3 30 30 1 1 20 "y"
    none "bogus" (by simp) (by simp) (by simp) (by simp) (by simp)
  exact ⟨h.1, h.2.2.2 (by rfl), h0.2.2.1 (by rfl)⟩

/-- With funnel drawing on, each further box adds exactly four segments
(helper for C6). -/
theorem foldl_funnelStep_some (bs : List LBox) : ∀ (acc : List Segment)
    (lb : LBox),
    ((bs.foldl (funnelStep true) (acc, some lb)).1).length
      = acc.length + 4 * bs.length := by
  induction bs with
  | nil => intro acc lb; simp
  | cons b rest ih =>
      intro acc lb
      simp only [List.foldl_cons, funnelStep, if_true]
      rw [ih]
      simp only [List.length_append, funnelBetween, List.length_cons,
        List.length_nil, List.length_cons]
      omega

/-- With funnel drawing off, no segment is ever emitted (helper for C6). -/
theorem foldl_funnelStep_false (bs : List LBox) :
    ∀ (acc : List Segment) (st : Option LBox),
    (bs.foldl (funnelStep false) (acc, st)).1 = acc := by
  induction bs with
  | nil => intro acc st; rfl
  | cons b rest ih =>
      intro acc st
      cases st <;> simp only [List.foldl_cons, funnelStep, if_false] <;>
        exact ih acc (some b)

/-- Exact funnel segment count over any box list (helper for C6). -/
theorem funnelSegments_length (bs : List LBox) :
    (funnelSegments bs true).length = 4 * (bs.length - 1) ∧
    (funnelSegments bs false).length = 0 := by
  constructor
  · cases bs with
    | nil => rfl
    | cons b rest =>
        simp only [funnelSegments, List.foldl_cons, funnelStep]
        rw [foldl_funnelStep_some]
        simp
  · simp only [funnelSegments, foldl_funnelStep_false]
    rfl

/-- Whether a walk entry is a real (placed) layer, not a spacer. -/
def isPlacedEntry : LayerEntry → Bool
  | .layerBox _ _ _ => true
  | .spacer _ => false

/-- The box-generation fold appends one box per placed entry and none per
spacer (helper for C6). -/
theorem foldl_layeredStep_count (dv : Bool) (i2 : List Nat) (sp : ℚ)
    (ps : List (Nat × LayerEntry)) : ∀ (st : LayeredState),
    ((ps.foldl (layeredStep dv i2 sp) st).boxes).length
      = st.boxes.length + ps.countP (fun p => isPlacedEntry p.2) := by
  induction ps with
  | nil => intro st; simp
  | cons p rest ih =>
      intro st
      rcases p with ⟨k, e⟩
      cases e with
      | spacer s =>
          simp only [List.foldl_cons, layeredStep, List.countP_cons]
          rw [ih]
          simp [isPlacedEntry]
      | layerBox x y z =>
          simp only [List.foldl_cons, layeredStep, List.countP_cons]
          rw [ih]
          simp [isPlacedEntry]
          omega

/-- Enumeration does not change how many entries satisfy a predicate on the
entry itself (helper for C6). -/
theorem countP_enumFrom (f : LayerEntry → Bool) (l : List LayerEntry) :
    ∀ k : Nat, (List.enumFrom k l).countP (fun p => f p.2) = l.countP f := by
  induction l with
  | nil => intro k; rfl
  | cons x xs ih =>
      intro k
      simp only [List.enumFrom, List.countP_cons, ih]

/-- C6 counterexample: two placed boxes separated only by a spacer
pseudo-layer still get the full four funnel segments between them — the
spacer merely advances the running coordinate and the drawing loop connects
consecutive entries of the `boxes` list, in which spacers never appear.
The claim's assertion that such segments are omitted is false. -/
theorem C6_counterexample :
    (layeredBoxes [.layerBox 30 30 30, .spacer 50, .layerBox 20 20 20] true []
        10 10).length = 2 ∧
    (funnelSegments
      (layeredBoxes [.layerBox 30 30 30, .spacer 50, .layerBox 20 20 20] true
        [] 10 10) true).length = 4 := by
  constructor <;>
    norm_num [layeredBoxes, layeredStep, funnelSegments, funnelStep,
      funnelBetween, List.enum, List.enumFrom]

/-- C6 (amended): with funnel drawing enabled the layered layout emits
exactly `4 * (N - 1)` connector segments for the `N` placed boxes (none for
the first box), and 0 when funnel drawing is disabled; `N` equals the number
of non-spacer entries, and spacers do **not** suppress the segments between
the placed boxes on either side of them. -/
theorem C6_funnel_segment_count_amended :
    ∀ (entries : List LayerEntry) (draw_volume : Bool) (index_2D : List Nat)
      (padding spacing : ℚ),
      (funnelSegments
          (layeredBoxes entries draw_volume index_2D padding spacing)
          true).length
        = 4 * ((layeredBoxes entries draw_volume index_2D padding spacing).length
            - 1) ∧
      (funnelSegments
          (layeredBoxes entries draw_volume index_2D padding spacing)
          false).length = 0 ∧
      (layeredBoxes entries draw_volume index_2D padding spacing).length
        = entries.countP isPlacedEntry := by
  intro entries dv i2 padding sp
  refine ⟨(funnelSegments_length _).1, (funnelSegments_length _).2, ?_⟩
  simp only [layeredBoxes, foldl_layeredStep_count, List.enum]
  rw [countP_enumFrom]
  simp

/-!  Helper lemmas for the hierarchy invariant (C1). -/

/-- Invariant of the per-level admission fold: `prev` only grows, everything
added to `prev` went through `layer`, and every admitted layer is a
successor of some current-level layer with all its incoming layers inside
the final `prev`. -/
def FoldInv (adj : Adj) (n : Nat) (cur prev0 : List Nat)
    (st : LevelState) : Prop :=
  (∀ x, x ∈ prev0 → x ∈ st.prev) ∧
  (∀ x, x ∈ st.prev → x ∈ prev0 ∨ x ∈ st.layer) ∧
  (∀ L, L ∈ st.layer →
    (∃ s, s ∈ cur ∧ adj s L = true) ∧
    (∀ p, p ∈ incomingLayers adj n L → p ∈ st.prev))

/-- A call to `admitSucc` either leaves the state unchanged or appends `e` (whose
incoming layers are all in `prev`) to the layer, extending `prev` by at
most `e`. -/
theorem admitSucc_cases (adj : Adj) (n : Nat) (st : LevelState) (e : Nat) :
    admitSucc adj n st e = st ∨
    ((∀ p, p ∈ incomingLayers adj n e → p ∈ st.prev) ∧
      (admitSucc adj n st e).layer = st.layer ++ [e] ∧
      (∀ x, x ∈ (admitSucc adj n st e).prev ↔ x ∈ st.prev ∨ x = e)) := by
  unfold admitSucc
  split
  · rename_i hall
    split
    · exact Or.inl rfl
    · rename_i hne
      refine Or.inr ⟨?_, rfl, ?_⟩
      · intro p hp
        have := List.all_eq_true.mp hall p hp
        simpa using this
      · intro x
        by_cases hc : e ∈ st.prev
        · have hct : st.prev.contains e = true := by simpa using hc
          rw [hct]
          simp only [if_true]
          constructor
          · exact fun h => Or.inl h
          · rintro (h | rfl)
            · exact h
            · exact hc
        · have hcf : st.prev.contains e = false := by simpa using hc
          rw [hcf]
          simp only [Bool.false_eq_true, if_false]
          simp [List.mem_append]
  · exact Or.inl rfl

/-- A single admission step preserves the fold invariant. -/
theorem admitSucc_inv {adj : Adj} {n : Nat} {cur prev0 : List Nat}
    {st : LevelState} {s e : Nat} (hs : s ∈ cur) (he : adj s e = true)
    (h : FoldInv adj n cur prev0 st) :
    FoldInv adj n cur prev0 (admitSucc adj n st e) := by
  rcases admitSucc_cases adj n st e with heq | ⟨hinc, hlayer, hprev⟩
  · rw [heq]; exact h
  · obtain ⟨h1, h2, h3⟩ := h
    refine ⟨?_, ?_, ?_⟩
    · intro x hx
      exact (hprev x).mpr (Or.inl (h1 x hx))
    · intro x hx
      rcases (hprev x).mp hx with hold | rfl
      · rcases h2 x hold with hx0 | hxl
        · exact Or.inl hx0
        · exact Or.inr (hlayer ▸ List.mem_append_left _ hxl)
      · exact Or.inr (hlayer ▸ List.mem_append_right _ (by simp))
    · intro L hL
      rw [hlayer] at hL
      rcases List.mem_append.mp hL with hold | hnew
      · obtain ⟨hpred, hincL⟩ := h3 L hold
        exact ⟨hpred, fun p hp => (hprev p).mpr (Or.inl (hincL p hp))⟩
      · have hLe : L = e := by simpa using hnew
        subst hLe
        exact ⟨⟨s, hs, he⟩, fun p hp => (hprev p).mpr (Or.inl (hinc p hp))⟩

/-- Folding admission over any list of successors of a current-level layer
preserves the invariant. -/
theorem foldl_admitSucc_inv {adj : Adj} {n : Nat} {cur prev0 : List Nat}
    {s : Nat} (hs : s ∈ cur) :
    ∀ (l : List Nat), (∀ e ∈ l, adj s e = true) → ∀ st,
      FoldInv adj n cur prev0 st →
      FoldInv adj n cur prev0 (l.foldl (admitSucc adj n) st) := by
  intro l
  induction l with
  | nil => exact fun _ st h => h
  | cons e rest ih =>
      intro hl st h
      simp only [List.foldl_cons]
      exact ih (fun x hx => hl x (List.mem_cons_of_mem _ hx)) _
        (admitSucc_inv hs (hl e (List.mem_cons_self _ _)) h)

/-- The whole per-level pass preserves the invariant. -/
theorem foldl_level_inv {adj : Adj} {n : Nat} {prev0 : List Nat}
    (cur : List Nat) :
    ∀ (cur2 : List Nat), (∀ x ∈ cur2, x ∈ cur) → ∀ st,
      FoldInv adj n cur prev0 st →
      FoldInv adj n cur prev0
        (cur2.foldl
          (fun st s => (outgoingLayers adj n s).foldl (admitSucc adj n) st)
          st) := by
  intro cur2
  induction cur2 with
  | nil => exact fun _ st h => h
  | cons s rest ih =>
      intro hsub st h
      simp only [List.foldl_cons]
      refine ih (fun x hx => hsub x (List.mem_cons_of_mem _ hx)) _ ?_
      refine foldl_admitSucc_inv (hsub s (List.mem_cons_self _ _)) _ ?_ _ h
      intro e he
      exact (List.mem_filter.mp he).2

/-- The result of `levelPass` satisfies the fold invariant. -/
theorem levelPass_inv (adj : Adj) (n : Nat) (cur prev : List Nat) :
    FoldInv adj n cur prev
      ⟨(levelPass adj n cur prev).1, (levelPass adj n cur prev).2.1⟩ := by
  have hinit : FoldInv adj n cur prev ⟨[], prev⟩ :=
    ⟨fun _ hx => hx, fun x hx => Or.inl hx,
     fun L hL => absurd hL (List.not_mem_nil L)⟩
  exact foldl_level_inv cur cur (fun _ hx => hx) _ hinit

/-- The per-level property of the hierarchy (the amended C1 invariant):
every layer of level `k+1` has a direct predecessor in level `k`, and all
its direct predecessors sit in levels `≤ k+1`. -/
def GoodHierarchy (adj : Adj) (n : Nat) (h : List (List Nat)) : Prop :=
  ∀ k L, L ∈ h.getD (k + 1) [] →
    (∃ p, p ∈ h.getD k [] ∧ adj p L = true) ∧
    (∀ p, p ∈ incomingLayers adj n L → ∃ j, j ≤ k + 1 ∧ p ∈ h.getD j [])

/-- Every already-placed layer (`prev_layers`) belongs to some level. -/
def PrevCovered (h : List (List Nat)) (prev : List Nat) : Prop :=
  ∀ x, x ∈ prev → ∃ j, j < h.length ∧ x ∈ h.getD j []

/-- On a nonempty list, `getLastD` is `getD` at the last index. -/
theorem getLastD_eq_getD (l : List (List Nat)) (h : l ≠ []) :
    l.getLastD [] = l.getD (l.length - 1) [] := by
  have hpos : 0 < l.length := List.length_pos.mpr h
  have hlt : l.length - 1 < l.length := by omega
  rw [List.getD_eq_getElem _ _ hlt, List.getLastD_eq_getLast?,
    List.getLast?_eq_getElem?, List.getElem?_eq_getElem hlt]
  rfl

/-- Appending a freshly collected level preserves the hierarchy invariant
and the coverage of `prev_layers`. -/
theorem goodHierarchy_append (adj : Adj) (n : Nat) (h : List (List Nat))
    (prev : List Nat) (hne : h ≠ []) (hg : GoodHierarchy adj n h)
    (hc : PrevCovered h prev) :
    GoodHierarchy adj n (h ++ [(levelPass adj n (h.getLastD []) prev).1]) ∧
    PrevCovered (h ++ [(levelPass adj n (h.getLastD []) prev).1])
      ((levelPass adj n (h.getLastD []) prev).2.1) := by
  have hpos : 0 < h.length := List.length_pos.mpr hne
  obtain ⟨hmono, hsub, hmem⟩ := levelPass_inv adj n (h.getLastD []) prev
  constructor
  · intro k L hL
    by_cases hk : k + 1 < h.length
    · rw [List.getD_append _ _ _ _ hk] at hL
      obtain ⟨⟨p, hp, hadj⟩, hpred⟩ := hg k L hL
      refine ⟨⟨p, ?_, hadj⟩, ?_⟩
      · rw [List.getD_append _ _ _ _ (by omega)]
        exact hp
      · intro q hq
        obtain ⟨j, hj, hmemj⟩ := hpred q hq
        refine ⟨j, hj, ?_⟩
        rw [List.getD_append _ _ _ _ (by omega)]
        exact hmemj
    · by_cases hk2 : k + 1 = h.length
      · have hLlayer : L ∈ (levelPass adj n (h.getLastD []) prev).1 := by
          rw [List.getD_append_right _ _ _ _ (by omega)] at hL
          simpa [hk2] using hL
        obtain ⟨⟨s, hscur, hadj⟩, hincL⟩ := hmem L hLlayer
        constructor
        · refine ⟨s, ?_, hadj⟩
          rw [getLastD_eq_getD h hne] at hscur
          rw [List.getD_append _ _ _ _ (by omega)]
          have hkk : k = h.length - 1 := by omega
          rw [hkk]
          exact hscur
        · intro q hq
          rcases hsub q (hincL q hq) with hqp | hql
          · obtain ⟨j, hj, hmemj⟩ := hc q hqp
            refine ⟨j, by omega, ?_⟩
            rw [List.getD_append _ _ _ _ hj]
            exact hmemj
          · refine ⟨k + 1, le_refl _, ?_⟩
            rw [List.getD_append_right _ _ _ _ (by omega)]
            simpa [hk2] using hql
      · rw [List.getD_eq_default] at hL
        · exact absurd hL (List.not_mem_nil L)
        · simp only [List.length_append, List.length_cons, List.length_nil]
          omega
  · intro x hx
    rcases hsub x hx with hxp | hxl
    · obtain ⟨j, hj, hmemj⟩ := hc x hxp
      refine ⟨j, ?_, ?_⟩
      · simp only [List.length_append, List.length_cons, List.length_nil]
        omega
      · rw [List.getD_append _ _ _ _ hj]
        exact hmemj
    · refine ⟨h.length, ?_, ?_⟩
      · simp only [List.length_append, List.length_cons, List.length_nil]
        omega
      · rw [List.getD_append_right _ _ _ _ (le_refl _)]
        simpa using hxl

/-- The hierarchy loop preserves the invariant, the coverage and level 0,
for every fuel value. -/
theorem hierarchyLoop_good (adj : Adj) (n : Nat) :
    ∀ (fuel : Nat) (h : List (List Nat)) (prev : List Nat),
      h ≠ [] → GoodHierarchy adj n h → PrevCovered h prev →
      GoodHierarchy adj n (hierarchyLoop adj n fuel h prev) ∧
      (hierarchyLoop adj n fuel h prev).getD 0 [] = h.getD 0 [] := by
  intro fuel
  induction fuel with
  | zero => exact fun h prev _ hg _ => ⟨hg, rfl⟩
  | succ fuel ih =>
      intro h prev hne hg hc
      simp only [hierarchyLoop]
      by_cases hfin : (levelPass adj n (h.getLastD []) prev).2.2
      · rw [if_pos hfin]
        exact ⟨hg, rfl⟩
      · rw [if_neg hfin]
        obtain ⟨hg2, hc2⟩ := goodHierarchy_append adj n h prev hne hg hc
        obtain ⟨hgood, h0⟩ := ih (h ++ [(levelPass adj n (h.getLastD []) prev).1])
          ((levelPass adj n (h.getLastD []) prev).2.1)
          (by simp) hg2 hc2
        refine ⟨hgood, ?_⟩
        rw [h0, List.getD_append _ _ _ _ (List.length_pos.mpr hne)]

/-- The concrete acyclic diamond-with-shortcut graph `0 → 1`, `0 → 2`,
`1 → 2`, used to refute C1 as stated. -/
def adjDiamond : Adj := fun i j =>
  (i == 0 && j == 1) || (i == 0 && j == 2) || (i == 1 && j == 2)

/-- C1 counterexample: on the acyclic graph `0 → 1`, `0 → 2`, `1 → 2`
(edges strictly increase the index, so the graph is a DAG), the hierarchy is
`[[0], [1, 2], [2]]`: layer 2 is placed in level 1 although its direct
predecessor 1 is not in any level `< 1` (level 0 is `[0]`) — because
`prev_layers` is updated while the level is being collected, an admitted
layer can satisfy the predecessor check for a later candidate of the *same*
level.  This refutes "every direct predecessor belongs to some level
strictly less than k".  (It also shows layer 2 being re-added to level 2:
already-placed layers are only checked against the level under
construction, not against earlier levels.) -/
theorem C1_counterexample :
    (∀ i j, adjDiamond i j = true → i < j) ∧
    model_to_hierarchy_lists adjDiamond 3 10 = [[0], [1, 2], [2]] ∧
    2 ∈ (model_to_hierarchy_lists adjDiamond 3 10).getD 1 [] ∧
    adjDiamond 1 2 = true ∧
    ¬ 1 ∈ (model_to_hierarchy_lists adjDiamond 3 10).getD 0 [] := by
  refine ⟨?_, by decide, by decide, by decide, by decide⟩
  intro i j hij
  simp only [adjDiamond, Bool.or_eq_true, Bool.and_eq_true, beq_iff_eq] at hij
  omega

/-- C1 (amended): for every layer graph and fuel, level 0 of the hierarchy
produced by `model_to_hierarchy_lists` is exactly the zero-in-degree input
layers, and every layer `L` of a level `k+1` has at least one direct
predecessor in level `k`, while every direct predecessor of `L` belongs to
some level `≤ k+1` — it may sit in level `k+1` itself, admitted earlier in
the same pass, rather than in a strictly smaller level. -/
theorem C1_hierarchy_levels_amended :
    ∀ (adj : Adj) (n fuel : Nat),
      (model_to_hierarchy_lists adj n fuel).getD 0 [] = find_input_layers adj n ∧
      (∀ k L, L ∈ (model_to_hierarchy_lists adj n fuel).getD (k + 1) [] →
        (∃ p, p ∈ (model_to_hierarchy_lists adj n fuel).getD k [] ∧
          adj p L = true) ∧
        (∀ p, p ∈ incomingLayers adj n L →
          ∃ j, j ≤ k + 1 ∧
            p ∈ (model_to_hierarchy_lists adj n fuel).getD j [])) := by
  intro adj n fuel
  have base_good : GoodHierarchy adj n [find_input_layers adj n] := by
    intro k L hL
    rw [List.getD_eq_default] at hL
    · exact absurd hL (List.not_mem_nil L)
    · simp
  have base_cov : PrevCovered [find_input_layers adj n]
      (find_input_layers adj n) := by
    intro x hx
    exact ⟨0, by simp, by simpa using hx⟩
  obtain ⟨hgood, h0⟩ := hierarchyLoop_good adj n fuel [find_input_layers adj n]
    (find_input_layers adj n) (by simp) base_good base_cov
  exact ⟨by simpa [model_to_hierarchy_lists] using h0, hgood⟩

/-- C1 witness: the amended invariant applied to the diamond graph at level
1, layer 2 — it has a predecessor in level 0 and all its predecessors in
levels ≤ 1. -/
theorem C1_witness :
    (model_to_hierarchy_lists adjDiamond 3 10).getD 0 []
      = find_input_layers adjDiamond 3 ∧
    (∃ p, p ∈ (model_to_hierarchy_lists adjDiamond 3 10).getD 0 [] ∧
      adjDiamond p 2 = true) ∧
    (∀ p, p ∈ incomingLayers adjDiamond 3 2 →
      ∃ j, j ≤ 1 ∧ p ∈ (model_to_hierarchy_lists adjDiamond 3 10).getD j []) := by
  have h := C1_hierarchy_levels_amended adjDiamond 3 10
  exact ⟨h.1, (h.2 0 2 (by decide)).1, (h.2 0 2 (by decide)).2⟩

end VisualKeras
